import Mathlib

/-!
Verification of the CoinCounter core: statement acquisition polling,
transaction ingestion (dedup, direction routing, category fallback),
the NLP category matching engine, and the embedding cache.

Each definition is a shallow embedding of the corresponding Python
function; external library calls (pymorphy2, RuWordNet, the OpenAI
embedding endpoint, `datetime.strptime`) are passed in as explicit
function parameters, since their behaviour is outside the repository.
-/

namespace CoinCounter

/-! ## Lexical processing (`coin_desk/utils/nlp_processor.py`) -/

/-- The character class of `re.split(r'[.!?;,\n]+', text)` in
`NLPProcessor.split_into_sentences`. -/
def isSentencePunct (c : Char) : Bool :=
  c = '.' || c = '!' || c = '?' || c = ';' || c = ',' || c = '\n'

mutual
/-- `re.split('[D]+', s)` semantics, fragment-accumulating phase: collect
characters of the current fragment until a delimiter starts a run. -/
def splitRunsFrag (p : Char → Bool) : List Char → List Char → List (List Char)
  | [], acc => [acc.reverse]
  | c :: cs, acc =>
    if p c then acc.reverse :: splitRunsDelim p cs
    else splitRunsFrag p cs (c :: acc)

/-- `re.split('[D]+', s)` semantics, inside a maximal delimiter run: skip
further delimiters; a run at the end of input yields a final empty fragment. -/
def splitRunsDelim (p : Char → Bool) : List Char → List (List Char)
  | [] => [[]]
  | c :: cs => if p c then splitRunsDelim p cs else splitRunsFrag p cs [c]
end

/-- `re.split(pattern+, text)`: split on maximal runs of delimiter characters. -/
def reSplitRuns (p : Char → Bool) (s : String) : List String :=
  (splitRunsFrag p s.toList []).map (fun cs => String.mk cs)

/-- Python `str.lower()` (character-wise case mapping). -/
def pyLower (s : String) : String := String.mk (s.toList.map Char.toLower)

/-- Python `str.strip()`: remove leading and trailing whitespace. -/
def pyStrip (s : String) : String :=
  String.mk (((s.toList.dropWhile Char.isWhitespace).reverse.dropWhile
    Char.isWhitespace).reverse)

/-- `str.split()` in Python: split on whitespace runs, no empty tokens. -/
def pySplitWhitespace (s : String) : List String :=
  ((splitRunsFrag Char.isWhitespace s.toList []).map String.mk).filter (fun w => w ≠ "")

/-- `NLPProcessor.split_into_sentences`: returns `[]` for falsy (empty) text;
otherwise splits on punctuation runs, keeps stripped fragments of length > 2,
and falls back to `[text]` when nothing survives. -/
def split_into_sentences (text : String) : List String :=
  if text = "" then []
  else
    let sentences := reSplitRuns isSentencePunct text
    let sentences := (sentences.filter (fun s => (pyStrip s).length > 2)).map pyStrip
    if sentences = [] then [text] else sentences

/-- Python's `needle in hay` substring test. -/
def isSubstring (needle hay : String) : Bool :=
  let n := needle.toList
  let h := hay.toList
  (List.range (h.length + 1)).any (fun i => (h.drop i).take n.length = n)

/-- Abstraction of a loaded `pymorphy2.MorphAnalyzer`: `parse(w)[0].normal_form`
and whether `parse(w)[0].tag` contains NOUN or VERB. External linguistic
resource, so uninterpreted here. -/
structure Morph where
  normal_form : String → String
  is_noun_or_verb : String → Bool

/-- Abstraction of `NLPProcessor`: `morph` is `None` when pymorphy2 is
unavailable, `wordnet` (as the synonym lists it yields for a word, after the
synset iteration and limit of `get_synonyms`) is `None` when RuWordNet is
unavailable. -/
structure NLPProcessor where
  morph : Option Morph
  wordnet : Option (String → List String)

/-- `NLPProcessor.lemmatize`: lower-case when the analyzer is missing or the
word is falsy (empty); otherwise the analyzer's normal form. -/
def NLPProcessor.lemmatize (nlp : NLPProcessor) (word : String) : String :=
  match nlp.morph with
  | none => pyLower word
  | some m => if word = "" then pyLower word else m.normal_form word

/-- `NLPProcessor.get_synonyms`: `{word}` when RuWordNet is unavailable or
yields nothing, else the yielded synonyms. -/
def NLPProcessor.get_synonyms (nlp : NLPProcessor) (word : String) : List String :=
  match nlp.wordnet with
  | none => [word]
  | some wn => if wn word = [] then [word] else wn word

/-- The `re.sub(r'[^\w\s]', ' ', text.lower())` step of `extract_keywords`:
non-word, non-space characters become spaces. -/
def cleanText (s : String) : String :=
  String.mk ((pyLower s).toList.map
    (fun c => if c.isAlphanum || c = '_' || c.isWhitespace then c else ' '))

/-- `NLPProcessor.extract_keywords`: degraded mode lower-cases and splits;
otherwise strip punctuation, drop words shorter than 3 characters, keep
normal forms of nouns and verbs. -/
def NLPProcessor.extract_keywords (nlp : NLPProcessor) (text : String) : List String :=
  match nlp.morph with
  | none => pySplitWhitespace (pyLower text)
  | some m =>
    let words := pySplitWhitespace (cleanText text)
    (words.filter (fun w => ¬ w.length < 3 ∧ m.is_noun_or_verb w)).map m.normal_form

/-- `NLPProcessor.expand_query_with_synonyms`: the keywords of the text
together with all their synonyms (as a membership set, modelled by a list). -/
def NLPProcessor.expand_query_with_synonyms (nlp : NLPProcessor) (text : String) :
    List String :=
  let keywords := nlp.extract_keywords text
  keywords ++ keywords.flatMap nlp.get_synonyms

/-- The boost-flag dictionary of `calculate_match_score`. -/
structure Boosts where
  exact_match : Bool
  lemma_match : Bool
  synonym_match : Bool
deriving DecidableEq, Repr

/-- The empty boost dictionary `{}` returned on no match (no flag set). -/
def Boosts.empty : Boosts := ⟨false, false, false⟩

/-- Python's binary `min`, written explicitly so that it evaluates by
kernel reduction. -/
def ratMin (a b : ℚ) : ℚ := if a ≤ b then a else b

theorem ratMin_eq_min (a b : ℚ) : ratMin a b = min a b := (min_def a b).symm

/-- The lemma set `{lemmatize(w) for w in text_lower.split() if len(w) > 2}`. -/
def textLemmas (nlp : NLPProcessor) (text_lower : String) : List String :=
  ((pySplitWhitespace text_lower).filter (fun w => w.length > 2)).map nlp.lemmatize

/-- `AdvancedCategoryMatcher.calculate_match_score`: additive boosts
(+0.25 exact substring, +0.15 lemma match, +0.10 synonym overlap) on the
base embedding similarity, clamped to 1.0. Scores are modelled as rationals. -/
def calculate_match_score (nlp : NLPProcessor) (transaction_text category_keyword : String)
    (base_similarity : ℚ) : ℚ × Boosts :=
  let text_lower := pyLower transaction_text
  let keyword_lower := pyLower category_keyword
  let exact := isSubstring keyword_lower text_lower
  let s1 := if exact then base_similarity + 25/100 else base_similarity
  let lemmas := textLemmas nlp text_lower
  let keyword_lemma := nlp.lemmatize keyword_lower
  let lemmaHit := decide (keyword_lemma ∈ lemmas)
  let s2 := if lemmaHit then s1 + 15/100 else s1
  let keyword_synonyms := nlp.expand_query_with_synonyms keyword_lower
  let synHit := lemmas.any (fun l => l ∈ keyword_synonyms)
  let s3 := if synHit then s2 + 10/100 else s2
  (ratMin s3 1, ⟨exact, lemmaHit, synHit⟩)

/-- One inner-loop step of `find_best_category` for a `(category, keyword)`
pair: embedding similarity maximised over sentence fragments, boosted, and
compared strictly against the best score so far. `sim` abstracts
`calculate_similarity` (an external embedding call). -/
def findStep (nlp : NLPProcessor) (sim : String → String → ℚ)
    (transaction_text : String) (sentences : List String)
    (acc : Option String × ℚ × Boosts) (category_name keyword : String) :
    Option String × ℚ × Boosts :=
  let max_embedding_similarity :=
    sentences.foldl (fun m s => max m (sim s keyword)) 0
  let fb := calculate_match_score nlp transaction_text keyword max_embedding_similarity
  if fb.1 > acc.2.1 then (some category_name, fb.1, fb.2) else acc

/-- The nested category/keyword loop of `find_best_category`. -/
def findLoop (nlp : NLPProcessor) (sim : String → String → ℚ)
    (transaction_text : String) (sentences : List String)
    (category_keywords : List (String × List String)) :
    Option String × ℚ × Boosts :=
  category_keywords.foldl
    (fun acc ck =>
      ck.2.foldl (fun a k => findStep nlp sim transaction_text sentences a ck.1 k) acc)
    (none, 0, Boosts.empty)

/-- `AdvancedCategoryMatcher.find_best_category`: best (category, score,
boosts) over all pairs, returned only when the best score reaches the
threshold, else `(None, 0.0, {})`. -/
def find_best_category (nlp : NLPProcessor) (sim : String → String → ℚ)
    (transaction_text : String) (category_keywords : List (String × List String))
    (threshold : ℚ) : Option String × ℚ × Boosts :=
  let sentences := split_into_sentences transaction_text
  let best := findLoop nlp sim transaction_text sentences category_keywords
  if best.2.1 ≥ threshold then best else (none, 0, Boosts.empty)

/-! ## Embedding cache (`coin_desk/utils/embedding_cache.py`, `embedding.py`) -/

/-- The durable `embedding_cache` table: `text` is the primary key, so at
most one row per text; modelled as an association list looked up by key. -/
abbrev CacheState := List (String × List ℚ)

/-- `get_cached_embedding`: `SELECT embedding FROM embedding_cache WHERE
text = ?`, `None` when absent. -/
def get_cached_embedding (st : CacheState) (text : String) : Option (List ℚ) :=
  (st.find? (fun row => row.1 = text)).map Prod.snd

/-- `save_embedding`: `INSERT OR REPLACE` keyed by `text` (upsert,
last write wins). -/
def save_embedding (st : CacheState) (text : String) (embedding : List ℚ) : CacheState :=
  (text, embedding) :: st.filter (fun row => row.1 ≠ text)

/-- Outcome of one `get_embedding` call: the result (or a raised error),
the cache state afterwards, and how many external provider calls were made. -/
structure EmbedOutcome where
  result : Except Unit (List ℚ)
  state : CacheState
  providerCalls : ℕ
deriving Repr

/-- `get_embedding`: raise when the OpenAI client is uninitialised; serve a
truthy cached vector without calling the provider; otherwise call the
provider once (`provider text = none` models a raised API error, which
stores nothing). Python's `if cached:` is a truthiness test, so an empty
cached list is treated as a miss. -/
def get_embedding (clientOk : Bool) (provider : String → Option (List ℚ))
    (st : CacheState) (text : String) : EmbedOutcome :=
  if ¬ clientOk then ⟨.error (), st, 0⟩
  else
    match get_cached_embedding st text with
    | some cached =>
      if cached ≠ [] then ⟨.ok cached, st, 0⟩
      else
        match provider text with
        | some embedding => ⟨.ok embedding, save_embedding st text embedding, 1⟩
        | none => ⟨.error (), st, 1⟩
    | none =>
      match provider text with
      | some embedding => ⟨.ok embedding, save_embedding st text embedding, 1⟩
      | none => ⟨.error (), st, 1⟩

/-! ## Statement polling (`Tochka.get_statement`, `bank_fetch.py`) -/

/-- Errors raised by `get_statement`: a response without a readable status
(`KeyError`/`IndexError` re-raised), a terminal `Error` status, or the
attempt bound elapsing without `Ready`. -/
inductive PollError where
  | malformedResponse
  | statusError
  | timeout
deriving DecidableEq, Repr

/-- The `while status != 'Ready' and attempts < max_attempts` loop of
`get_statement`. `responses i` is the status of the i-th poll (`none` when
the i-th response has no readable status); `fuel` is
`max_attempts - attempts`. On success returns the final value of
`attempts`, which counts the polls performed. -/
def pollLoop (responses : ℕ → Option String) (status : Option String)
    (attempts : ℕ) : ℕ → Except PollError ℕ
  | 0 => if status = some "Ready" then .ok attempts else .error .timeout
  | fuel + 1 =>
    if status = some "Ready" then .ok attempts
    else
      match responses attempts with
      | none => .error .malformedResponse
      | some s =>
        if s = "Error" then .error .statusError
        else pollLoop responses (some s) (attempts + 1) fuel

/-- `Tochka.get_statement`: poll from `status = None`, `attempts = 0` up to
`max_attempts` polls. -/
def get_statement (max_attempts : ℕ) (responses : ℕ → Option String) :
    Except PollError ℕ :=
  pollLoop responses none 0 max_attempts

/-! ## Transaction ingestion (`Tochka._save_transaction`,
`Tochka.fetch_and_save_statements`) -/

/-- A `CreditorParty`/`DebtorParty` block; absent fields default to `""`
as with `.get(..., {})` followed by `.get(..., "")`. -/
structure PartyBlock where
  inn : String := ""
  name : String := ""
deriving DecidableEq, Repr

/-- A `CreditorAgent`/`DebtorAgent` block. -/
structure AgentBlock where
  identification : String := ""
  accountIdentification : String := ""
  name : String := ""
deriving DecidableEq, Repr

/-- A `CreditorAccount`/`DebtorAccount` block. -/
structure AccountBlock where
  identification : String := ""
deriving DecidableEq, Repr

/-- One raw transaction object of the statement response. -/
structure Payload where
  documentProcessDate : String := ""
  description : String := ""
  amount : ℚ := 0
  creditDebitIndicator : Option String := none
  creditorParty : PartyBlock := {}
  creditorAgent : AgentBlock := {}
  creditorAccount : AccountBlock := {}
  debtorParty : PartyBlock := {}
  debtorAgent : AgentBlock := {}
  debtorAccount : AccountBlock := {}
deriving DecidableEq, Repr

/-- A persisted `Transaction` row; `contractor` holds the linked
contractor's INN (`None` when no INN was present), `expense_category` the
category name of the FK target. -/
structure TransactionRecord where
  batch_id : String
  date : String
  account : String
  contractor : Option String
  contractor_inn : String
  contractor_bic : String
  contractor_corr_account : String
  contractor_bank_name : String
  contractor_account : String
  debit : Option ℚ
  credit : Option ℚ
  purpose : String
  expense_category : Option String
  category_source : Option String
deriving DecidableEq, Repr

/-- A `Contractor` row. -/
structure Contractor where
  name : String
  inn : String
  bic : String
deriving DecidableEq, Repr

/-- The database state touched by ingestion: `Transaction` rows,
`Contractor` rows, `ExpenseCategory` names, and the read-only
`ContractorExpenseMapping` (INN → category name). -/
structure DBState where
  transactions : List TransactionRecord
  contractors : List Contractor
  categories : List String
  mappings : List (String × String)
deriving DecidableEq, Repr

/-- `ExpenseCategory.objects.get_or_create(name=...)`. -/
def ensureCategory (st : DBState) (name : String) : DBState :=
  if name ∈ st.categories then st else { st with categories := st.categories ++ [name] }

/-- The external collaborators of `_save_transaction`: the embedding
similarity provider, NLP resources, the keyword table and threshold from
settings, and `datetime.strptime('%Y-%m-%d')`+`timezone.make_aware`
(`parseDate`, `none` when parsing raises). -/
structure IngestEnv where
  nlp : NLPProcessor
  sim : String → String → ℚ
  category_keywords : List (String × List String)
  threshold : ℚ
  parseDate : String → Option String

/-- The direction-dependent party block (`CreditorParty` for debits,
`DebtorParty` otherwise). -/
def payloadParty (p : Payload) : PartyBlock :=
  if p.creditDebitIndicator = some "Debit" then p.creditorParty else p.debtorParty

/-- The direction-dependent agent block. -/
def payloadAgent (p : Payload) : AgentBlock :=
  if p.creditDebitIndicator = some "Debit" then p.creditorAgent else p.debtorAgent

/-- The direction-dependent account block. -/
def payloadAccount (p : Payload) : AccountBlock :=
  if p.creditDebitIndicator = some "Debit" then p.creditorAccount else p.debtorAccount

/-- `purpose = transaction_data.get("description", "").strip()`. -/
def payloadPurpose (p : Payload) : String := pyStrip p.description

/-- `contractor_inn = party.get("inn", "").strip()`. -/
def payloadInn (p : Payload) : String := pyStrip (payloadParty p).inn

/-- `contractor_bic = agent.get("identification", "").strip()`. -/
def payloadBic (p : Payload) : String := pyStrip (payloadAgent p).identification

/-- The duplicate check
`Transaction.objects.filter(date=.., contractor_inn=.., contractor_bic=..,
purpose=..).exists()`. -/
def isDuplicate (st : DBState) (date : String) (p : Payload) : Bool :=
  st.transactions.any (fun t =>
    t.date = date && t.contractor_inn = payloadInn p &&
    t.contractor_bic = payloadBic p && t.purpose = payloadPurpose p)

/-- The find-or-create of the `Contractor` row (only when an INN is
present; first-seen name wins, empty name becomes "Unknown contractor"). -/
def ensureContractor (st : DBState) (p : Payload) : DBState :=
  if payloadInn p ≠ "" ∧ ¬ st.contractors.any (fun c => c.inn = payloadInn p) then
    { st with contractors := st.contractors ++
        [⟨if pyStrip (payloadParty p).name = "" then "Unknown contractor"
          else pyStrip (payloadParty p).name,
          payloadInn p, payloadBic p⟩] }
  else st

/-- The category-routing block of `_save_transaction`: Credit gets the fixed
"Выручка" category with source "default"; Debit goes through the NLP
matcher, then the INN mapping (source "map"); anything else stays
uncategorised. Returns the updated state (for `get_or_create`) together
with the category and source to persist. -/
def routeCategory (env : IngestEnv) (st1 : DBState) (p : Payload) :
    DBState × Option String × Option String :=
  if p.creditDebitIndicator = some "Credit" then
    (ensureCategory st1 "Выручка", some "Выручка", some "default")
  else if p.creditDebitIndicator = some "Debit" then
    match (find_best_category env.nlp env.sim (payloadPurpose p) env.category_keywords
            env.threshold).1 with
    | some best_category_name =>
      (ensureCategory st1 best_category_name, some best_category_name, some "nlp")
    | none =>
      if payloadInn p ≠ "" then
        match st1.mappings.find? (fun m => m.1 = payloadInn p) with
        | some mapping => (st1, some mapping.2, some "map")
        | none => (st1, none, none)
      else (st1, none, none)
  else (st1, none, none)

/-- The `Transaction.objects.create(...)` row built by `_save_transaction`
for a payload parsed to `date`, with the routed category and source. -/
def newRecord (p : Payload) (date account batch_id : String)
    (category source : Option String) : TransactionRecord :=
  { batch_id := batch_id
    date := date
    account := account
    contractor := if payloadInn p = "" then none else some (payloadInn p)
    contractor_inn := payloadInn p
    contractor_bic := payloadBic p
    contractor_corr_account := pyStrip (payloadAgent p).accountIdentification
    contractor_bank_name := pyStrip (payloadAgent p).name
    contractor_account := pyStrip (payloadAccount p).identification
    debit := if p.creditDebitIndicator = some "Debit" then some p.amount else none
    credit := if p.creditDebitIndicator = some "Debit" then none else some p.amount
    purpose := payloadPurpose p
    expense_category := category
    category_source := source }

/-- `Tochka._save_transaction` after a successful date parse and a negative
duplicate check: find-or-create the contractor, route the category, and
persist the new row. -/
def saveNew (env : IngestEnv) (st : DBState) (date : String) (p : Payload)
    (account batch_id : String) : DBState :=
  let st1 := ensureContractor st p
  let routed := routeCategory env st1 p
  { routed.1 with transactions := routed.1.transactions ++
      [newRecord p date account batch_id routed.2.1 routed.2.2] }

/-- `Tochka._save_transaction`: parse the date (a `strptime` failure is
caught and skips the payload), skip duplicates by
(date, INN, BIC, purpose), then create the row. -/
def save_transaction (env : IngestEnv) (st : DBState) (transaction_data : Payload)
    (account batch_id : String) : DBState :=
  match env.parseDate transaction_data.documentProcessDate with
  | none => st
  | some date =>
    if isDuplicate st date transaction_data then st
    else saveNew env st date transaction_data account batch_id

/-- Failures of one account's acquisition inside
`fetch_and_save_statements`: a non-200 `create_statement` (raises), a
create response without `statementId` (`KeyError`, re-raised), or a
`get_statement` failure. -/
inductive FetchError where
  | createFailed
  | malformedCreateResponse
  | poll (e : PollError)
deriving DecidableEq, Repr

/-- What the bank returns for one account during a run: whether
`create_statement` succeeds, whether its response carries a
`statementId`, the poll status sequence, and the transaction list of the
final statement response. -/
structure AccountFeed where
  account : String
  createOk : Bool
  statementId : Option String
  pollResponses : ℕ → Option String
  transactions : List Payload

/-- The body of the per-account loop of `fetch_and_save_statements`:
create the statement, poll it, then save each transaction of the
statement. An error leaves the database as it was for this account and is
raised to the caller. -/
def processAccount (env : IngestEnv) (max_attempts : ℕ) (batch_id : String)
    (feed : AccountFeed) (st : DBState) : DBState × Option FetchError :=
  if ¬ feed.createOk then (st, some .createFailed)
  else
    match feed.statementId with
    | none => (st, some .malformedCreateResponse)
    | some _ =>
      match get_statement max_attempts feed.pollResponses with
      | .error e => (st, some (.poll e))
      | .ok _ =>
        (feed.transactions.foldl
          (fun s t => save_transaction env s t feed.account batch_id) st, none)

/-- `Tochka.fetch_and_save_statements`: iterate over the configured
accounts in order; an uncaught exception for one account aborts the loop
(earlier accounts' saves persist, later accounts are not reached). -/
def fetch_and_save_statements (env : IngestEnv) (max_attempts : ℕ) (batch_id : String)
    (feeds : List AccountFeed) (st : DBState) : DBState × Option FetchError :=
  match feeds with
  | [] => (st, none)
  | feed :: rest =>
    match processAccount env max_attempts batch_id feed st with
    | (st1, none) => fetch_and_save_statements env max_attempts batch_id rest st1
    | (st1, some e) => (st1, some e)

/-! ## Theorems -/

/-- After the status reads `Ready`, the loop guard fails and the attempt
counter is returned unchanged. -/
theorem pollLoop_ready (responses : ℕ → Option String) (attempts : ℕ) :
    ∀ fuel, pollLoop responses (some "Ready") attempts fuel = .ok attempts := by
  intro fuel
  cases fuel <;> simp [pollLoop]

/-- A run of non-`Ready`, non-`Error` statuses followed by `Ready` inside the
fuel bound ends with `Ready` after consuming the run. -/
theorem pollLoop_succeeds (responses : ℕ → Option String) :
    ∀ (k fuel attempts : ℕ) (status : Option String), status ≠ some "Ready" →
    (∀ i, i < k → ∃ s, responses (attempts + i) = some s ∧ s ≠ "Ready" ∧ s ≠ "Error") →
    responses (attempts + k) = some "Ready" → k < fuel →
    pollLoop responses status attempts fuel = .ok (attempts + k + 1) := by
  intro k
  induction k with
  | zero =>
    intro fuel attempts status hs _ hready hk
    obtain ⟨f, rfl⟩ : ∃ f, fuel = f + 1 := ⟨fuel - 1, by omega⟩
    simp only [Nat.add_zero] at hready
    simp only [pollLoop, if_neg hs, hready]
    rw [if_neg (by decide), pollLoop_ready]
  | succ k ih =>
    intro fuel attempts status hs hrun hready hk
    obtain ⟨f, rfl⟩ : ∃ f, fuel = f + 1 := ⟨fuel - 1, by omega⟩
    obtain ⟨s, hs0, hsR, hsE⟩ := hrun 0 (Nat.succ_pos k)
    simp only [Nat.add_zero] at hs0
    simp only [pollLoop, if_neg hs, hs0, if_neg hsE]
    have h1 : pollLoop responses (some s) (attempts + 1) f = .ok ((attempts + 1) + k + 1) := by
      refine ih f (attempts + 1) (some s) (by simpa using hsR) ?_ ?_ (by omega)
      · intro i hi
        have := hrun (i + 1) (by omega)
        simpa [Nat.add_assoc, Nat.add_comm 1 i] using this
      · simpa [Nat.add_assoc, Nat.add_comm 1 k] using hready
    rw [h1]
    congr 1
    omega

/-- If every poll within the fuel bound yields a status that is neither
`Ready` nor `Error`, the loop exhausts its attempts and times out. -/
theorem pollLoop_timeout (responses : ℕ → Option String) :
    ∀ (fuel attempts : ℕ) (status : Option String), status ≠ some "Ready" →
    (∀ i, i < fuel → ∃ s, responses (attempts + i) = some s ∧ s ≠ "Ready" ∧ s ≠ "Error") →
    pollLoop responses status attempts fuel = .error .timeout := by
  intro fuel
  induction fuel with
  | zero =>
    intro attempts status hs _
    simp [pollLoop, hs]
  | succ f ih =>
    intro attempts status hs hrun
    obtain ⟨s, hs0, hsR, hsE⟩ := hrun 0 (Nat.succ_pos f)
    simp only [Nat.add_zero] at hs0
    simp only [pollLoop, if_neg hs, hs0, if_neg hsE]
    refine ih (attempts + 1) (some s) (by simpa using hsR) ?_
    intro i hi
    have := hrun (i + 1) (by omega)
    simpa [Nat.add_assoc, Nat.add_comm 1 i] using this

/-- An `Error` status at position `j` inside the fuel bound, preceded only by
non-`Ready` non-`Error` statuses, raises immediately. -/
theorem pollLoop_error (responses : ℕ → Option String) :
    ∀ (j fuel attempts : ℕ) (status : Option String), status ≠ some "Ready" →
    j < fuel → responses (attempts + j) = some "Error" →
    (∀ i, i < j → ∃ s, responses (attempts + i) = some s ∧ s ≠ "Ready" ∧ s ≠ "Error") →
    pollLoop responses status attempts fuel = .error .statusError := by
  intro j
  induction j with
  | zero =>
    intro fuel attempts status hs hj herr _
    obtain ⟨f, rfl⟩ : ∃ f, fuel = f + 1 := ⟨fuel - 1, by omega⟩
    simp only [Nat.add_zero] at herr
    simp [pollLoop, if_neg hs, herr]
  | succ j ih =>
    intro fuel attempts status hs hj herr hrun
    obtain ⟨f, rfl⟩ : ∃ f, fuel = f + 1 := ⟨fuel - 1, by omega⟩
    obtain ⟨s, hs0, hsR, hsE⟩ := hrun 0 (Nat.succ_pos j)
    simp only [Nat.add_zero] at hs0
    simp only [pollLoop, if_neg hs, hs0, if_neg hsE]
    refine ih f (attempts + 1) (some s) (by simpa using hsR) (by omega) ?_ ?_
    · simpa [Nat.add_assoc, Nat.add_comm 1 j] using herr
    · intro i hi
      have := hrun (i + 1) (by omega)
      simpa [Nat.add_assoc, Nat.add_comm 1 i] using this

/-- C1: `get_statement` succeeds after exactly k+1 polls when k `Pending`
responses are followed by `Ready` within the attempt bound; it raises
`Timeout` when no response within the bound is `Ready` (and none is the
short-circuiting `Error`); and the first `Error` status fails immediately
regardless of remaining attempts. -/
theorem get_statement_polling_spec (max_attempts k j : ℕ) (responses : ℕ → Option String) :
    ((∀ i, i < k → responses i = some "Pending") → responses k = some "Ready" →
      k + 1 ≤ max_attempts → get_statement max_attempts responses = .ok (k + 1)) ∧
    ((∀ i, i < max_attempts → ∃ s, responses i = some s ∧ s ≠ "Ready" ∧ s ≠ "Error") →
      get_statement max_attempts responses = .error .timeout) ∧
    (j < max_attempts → responses j = some "Error" →
      (∀ i, i < j → ∃ s, responses i = some s ∧ s ≠ "Ready" ∧ s ≠ "Error") →
      get_statement max_attempts responses = .error .statusError) := by
  refine ⟨?_, ?_, ?_⟩
  · intro hpend hready hk
    have := pollLoop_succeeds responses k max_attempts 0 none (by simp)
      (fun i hi => ⟨"Pending", by simpa using hpend i hi, by decide, by decide⟩)
      (by simpa using hready) (by omega)
    simpa [get_statement] using this
  · intro hrun
    exact pollLoop_timeout responses max_attempts 0 none (by simp)
      (fun i hi => by simpa using hrun i hi)
  · intro hj herr hrun
    exact pollLoop_error responses j max_attempts 0 none (by simp) hj
      (by simpa using herr) (fun i hi => by simpa using hrun i hi)

/-- C1 witness: with a bound of 60 and two `Pending` responses before
`Ready`, `get_statement` returns after exactly 3 polls; a constant
`Pending` stream times out after the bound; an `Error` at the second poll
fails immediately. -/
theorem get_statement_polling_spec_witness :
    get_statement 60 (fun i => if i < 2 then some "Pending" else some "Ready") = .ok 3 ∧
    get_statement 3 (fun _ => some "Pending") = .error .timeout ∧
    get_statement 60 (fun i => if i = 0 then some "Pending" else some "Error")
      = .error .statusError := by
  refine ⟨?_, ?_, ?_⟩
  · exact (get_statement_polling_spec 60 2 0
      (fun i => if i < 2 then some "Pending" else some "Ready")).1
      (fun i hi => by interval_cases i <;> rfl) (by norm_num) (by norm_num)
  · exact (get_statement_polling_spec 3 0 0 (fun _ => some "Pending")).2.1
      (fun i _ => ⟨"Pending", rfl, by decide, by decide⟩)
  · exact (get_statement_polling_spec 60 0 1
      (fun i => if i = 0 then some "Pending" else some "Error")).2.2
      (by norm_num) (by norm_num)
      (fun i hi => ⟨"Pending", by interval_cases i <;> rfl, by decide, by decide⟩)

/-- C8 counterexample: for the empty input text, `split_into_sentences`
returns the empty list (the `if not text: return []` guard), so it is not
true that it never returns an empty sequence. -/
theorem split_into_sentences_empty_counterexample :
    split_into_sentences "" = [] ∧ ¬ (∀ text : String, split_into_sentences text ≠ []) :=
  ⟨rfl, fun h => h "" rfl⟩

/-- C8 (amended): for every nonempty input text, `split_into_sentences`
never returns an empty list; every returned element is either a trimmed
punctuation-split fragment of length > 2 that survived the filter, or the
original text; and when no fragment survives the filter the result is
exactly `[text]`. (The empty text instead returns `[]`.) -/
theorem split_into_sentences_spec (text : String) (h : text ≠ "") :
    split_into_sentences text ≠ [] ∧
    (∀ s ∈ split_into_sentences text,
      (s ∈ ((reSplitRuns isSentencePunct text).filter
              (fun f => (pyStrip f).length > 2)).map pyStrip ∧ 2 < s.length) ∨ s = text) ∧
    ((reSplitRuns isSentencePunct text).filter (fun f => (pyStrip f).length > 2) = [] →
      split_into_sentences text = [text]) := by
  have hdef : split_into_sentences text =
      (let fr := ((reSplitRuns isSentencePunct text).filter
          (fun f => (pyStrip f).length > 2)).map pyStrip
       if fr = [] then [text] else fr) := by
    simp only [split_into_sentences, if_neg h]
  by_cases hl : ((reSplitRuns isSentencePunct text).filter
      (fun f => (pyStrip f).length > 2)).map pyStrip = []
  · rw [hdef, if_pos hl]
    refine ⟨by simp, ?_, fun _ => rfl⟩
    intro s hs
    simp only [List.mem_singleton] at hs
    exact Or.inr hs
  · rw [hdef, if_neg hl]
    refine ⟨hl, ?_, ?_⟩
    · intro s hs
      left
      refine ⟨hs, ?_⟩
      simp only [List.mem_map] at hs
      obtain ⟨f, hf, rfl⟩ := hs
      have := List.of_mem_filter hf
      simpa using this
    · intro hnil
      exfalso
      exact hl (by simp [hnil])

/-- C8 witness: a nonempty text with one long and one short fragment keeps
the long fragment. -/
theorem split_into_sentences_spec_witness :
    split_into_sentences "hello, ok" ≠ [] :=
  (split_into_sentences_spec "hello, ok" (by decide)).1

/-- Total additive bonus contributed by a set of boost flags. -/
def boostBonus (e l s : Bool) : ℚ :=
  (if e then 25/100 else 0) + (if l then 15/100 else 0) + (if s then 10/100 else 0)

/-- The exact-match flag of `calculate_match_score`. -/
def exactFlag (transaction_text category_keyword : String) : Bool :=
  isSubstring (pyLower category_keyword) (pyLower transaction_text)

/-- The lemma-match flag of `calculate_match_score`. -/
def lemmaFlag (nlp : NLPProcessor) (transaction_text category_keyword : String) : Bool :=
  decide (nlp.lemmatize (pyLower category_keyword) ∈ textLemmas nlp (pyLower transaction_text))

/-- The synonym-match flag of `calculate_match_score`. -/
def synFlag (nlp : NLPProcessor) (transaction_text category_keyword : String) : Bool :=
  (textLemmas nlp (pyLower transaction_text)).any
    (fun l => l ∈ nlp.expand_query_with_synonyms (pyLower category_keyword))

/-- Closed form of `calculate_match_score`: the clamped sum of the base
similarity and the bonuses of exactly the boost conditions that hold. -/
theorem calculate_match_score_eq (nlp : NLPProcessor)
    (transaction_text category_keyword : String) (base_similarity : ℚ) :
    calculate_match_score nlp transaction_text category_keyword base_similarity =
      (min (base_similarity +
          boostBonus (exactFlag transaction_text category_keyword)
            (lemmaFlag nlp transaction_text category_keyword)
            (synFlag nlp transaction_text category_keyword)) 1,
        ⟨exactFlag transaction_text category_keyword,
         lemmaFlag nlp transaction_text category_keyword,
         synFlag nlp transaction_text category_keyword⟩) := by
  simp only [calculate_match_score, ratMin_eq_min, exactFlag, lemmaFlag, synFlag,
    boostBonus, Prod.ext_iff]
  split_ifs <;> exact ⟨by ring, trivial⟩

/-- Auxiliary monotonicity: weakening one boost flag can only lower its
bonus term. -/
theorem ite_bonus_le (b b' : Bool) (c : ℚ) (hc : 0 ≤ c) (h : b = true → b' = true) :
    (if b then c else 0) ≤ (if b' then c else 0) := by
  cases b
  · cases b' <;> simp [hc]
  · rw [h rfl]

/-- C6: the final score of `calculate_match_score` equals the base
similarity plus the bonus of each boost condition that holds (+0.25 exact,
+0.15 lemma, +0.10 synonym, stacking independently), clamped to 1; it never
exceeds 1; and disabling any subset of the boosts that fired never
increases the score (so each additional firing boost never decreases it). -/
theorem calculate_match_score_boosts (nlp : NLPProcessor)
    (transaction_text category_keyword : String) (base_similarity : ℚ) :
    (calculate_match_score nlp transaction_text category_keyword base_similarity).1 =
      min (base_similarity +
        boostBonus
          (calculate_match_score nlp transaction_text category_keyword
            base_similarity).2.exact_match
          (calculate_match_score nlp transaction_text category_keyword
            base_similarity).2.lemma_match
          (calculate_match_score nlp transaction_text category_keyword
            base_similarity).2.synonym_match) 1 ∧
    (calculate_match_score nlp transaction_text category_keyword base_similarity).1 ≤ 1 ∧
    (∀ e l s : Bool,
      min (base_similarity +
        boostBonus
          (e && (calculate_match_score nlp transaction_text category_keyword
            base_similarity).2.exact_match)
          (l && (calculate_match_score nlp transaction_text category_keyword
            base_similarity).2.lemma_match)
          (s && (calculate_match_score nlp transaction_text category_keyword
            base_similarity).2.synonym_match)) 1 ≤
      (calculate_match_score nlp transaction_text category_keyword base_similarity).1) := by
  rw [calculate_match_score_eq]
  refine ⟨rfl, min_le_right _ _, ?_⟩
  intro e l s
  simp only
  refine min_le_min (add_le_add_left ?_ _) le_rfl
  unfold boostBonus
  gcongr
  · exact ite_bonus_le _ _ _ (by norm_num) (fun h => by
      cases (Bool.and_eq_true _ _).mp h with | intro _ h2 => exact h2)
  · exact ite_bonus_le _ _ _ (by norm_num) (fun h => by
      cases (Bool.and_eq_true _ _).mp h with | intro _ h2 => exact h2)
  · exact ite_bonus_le _ _ _ (by norm_num) (fun h => by
      cases (Bool.and_eq_true _ _).mp h with | intro _ h2 => exact h2)

/-- The flat (category, keyword) pair enumeration of the nested loop of
`find_best_category`, in iteration order. -/
def pairList (category_keywords : List (String × List String)) : List (String × String) :=
  category_keywords.flatMap (fun ck => ck.2.map (fun k => (ck.1, k)))

/-- The boosted score and flags `find_best_category` computes for one
(category, keyword) pair: embedding similarity maximised over the sentence
fragments, then boosted. -/
def pairResult (nlp : NLPProcessor) (sim : String → String → ℚ)
    (transaction_text : String) (sentences : List String) (p : String × String) :
    ℚ × Boosts :=
  calculate_match_score nlp transaction_text p.2
    (sentences.foldl (fun m s => max m (sim s p.2)) 0)

section ArgmaxFold

variable (F : String × String → ℚ × Boosts)

/-- One strict-improvement update step over the flat pair list. -/
def argStep (acc : Option String × ℚ × Boosts) (p : String × String) :
    Option String × ℚ × Boosts :=
  if (F p).1 > acc.2.1 then (some p.1, (F p).1, (F p).2) else acc

/-- The running maximum over a pair list. -/
def runMax (l : List (String × String)) (init : ℚ) : ℚ :=
  l.foldl (fun m p => max m (F p).1) init

theorem le_runMax (l : List (String × String)) : ∀ init : ℚ, init ≤ runMax F l init := by
  induction l with
  | nil => intro init; exact le_rfl
  | cons p l ih =>
    intro init
    exact le_trans (le_max_left init (F p).1) (ih (max init (F p).1))

/-- Characterisation of the strict-improvement fold: its score is the
running maximum; if nothing beats the initial score the accumulator is
unchanged; otherwise the first pair attaining the maximum wins. -/
theorem argStep_foldl (l : List (String × String)) :
    ∀ acc : Option String × ℚ × Boosts,
    (l.foldl (argStep F) acc).2.1 = runMax F l acc.2.1 ∧
    (runMax F l acc.2.1 = acc.2.1 → l.foldl (argStep F) acc = acc) ∧
    (acc.2.1 < runMax F l acc.2.1 →
      ∃ p₀, l.find? (fun p => (F p).1 = runMax F l acc.2.1) = some p₀ ∧
        l.foldl (argStep F) acc = (some p₀.1, (F p₀).1, (F p₀).2)) := by
  induction l with
  | nil =>
    intro acc
    exact ⟨rfl, fun _ => rfl, fun h => absurd h (lt_irrefl _)⟩
  | cons p l ih =>
    intro acc
    by_cases hp : (F p).1 > acc.2.1
    · have hstep : argStep F acc p = (some p.1, (F p).1, (F p).2) := if_pos hp
      have hmax : max acc.2.1 (F p).1 = (F p).1 := max_eq_right (le_of_lt hp)
      have hM : runMax F (p :: l) acc.2.1 = runMax F l (F p).1 := by
        simp only [runMax, List.foldl_cons, hmax]
      obtain ⟨ih1, ih2, ih3⟩ := ih (some p.1, (F p).1, (F p).2)
      have hfold : (p :: l).foldl (argStep F) acc =
          l.foldl (argStep F) (some p.1, (F p).1, (F p).2) := by
        simp only [List.foldl_cons, hstep]
      refine ⟨?_, ?_, ?_⟩
      · rw [hfold, hM]; exact ih1
      · intro h
        exfalso
        have : (F p).1 ≤ runMax F (p :: l) acc.2.1 := by
          rw [hM]; exact le_runMax F l (F p).1
        rw [h] at this
        exact absurd (lt_of_lt_of_le hp this) (lt_irrefl _)
      · intro _
        have hle : (F p).1 ≤ runMax F l (F p).1 := le_runMax F l (F p).1
        rcases eq_or_lt_of_le hle with heq | hlt
        · refine ⟨p, ?_, ?_⟩
          · have : (F p).1 = runMax F (p :: l) acc.2.1 := by rw [hM, ← heq]
            simp [List.find?_cons, this]
          · rw [hfold]
            exact ih2 (by rw [← heq])
        · obtain ⟨p₀, hfind, hres⟩ := ih3 hlt
          refine ⟨p₀, ?_, ?_⟩
          · have hne : ¬ ((F p).1 = runMax F (p :: l) acc.2.1) := by
              rw [hM]; exact ne_of_lt hlt
            rw [List.find?_cons_of_neg _ (by simpa using hne), hM]
            exact hfind
          · rw [hfold, hres]
    · push_neg at hp
      have hstep : argStep F acc p = acc := if_neg (by simpa using not_lt.mpr hp)
      have hmax : max acc.2.1 (F p).1 = acc.2.1 := max_eq_left hp
      have hM : runMax F (p :: l) acc.2.1 = runMax F l acc.2.1 := by
        simp only [runMax, List.foldl_cons, hmax]
      obtain ⟨ih1, ih2, ih3⟩ := ih acc
      have hfold : (p :: l).foldl (argStep F) acc = l.foldl (argStep F) acc := by
        simp only [List.foldl_cons, hstep]
      refine ⟨?_, ?_, ?_⟩
      · rw [hfold, hM]; exact ih1
      · intro h; rw [hfold]; exact ih2 (by rw [← hM]; exact h)
      · intro hlt
        rw [hM] at hlt
        obtain ⟨p₀, hfind, hres⟩ := ih3 hlt
        refine ⟨p₀, ?_, ?_⟩
        · have hne : ¬ ((F p).1 = runMax F (p :: l) acc.2.1) := by
            rw [hM]
            exact ne_of_lt (lt_of_le_of_lt hp hlt)
          rw [List.find?_cons_of_neg _ (by simpa using hne), hM]
          exact hfind
        · rw [hfold, hres]

end ArgmaxFold

/-- The nested loop of `find_best_category` equals the flat
strict-improvement fold over `pairList`. -/
theorem findLoop_eq_argStep (nlp : NLPProcessor) (sim : String → String → ℚ)
    (transaction_text : String) (sentences : List String)
    (category_keywords : List (String × List String)) :
    findLoop nlp sim transaction_text sentences category_keywords =
      (pairList category_keywords).foldl
        (argStep (pairResult nlp sim transaction_text sentences))
        (none, 0, Boosts.empty) := by
  unfold findLoop pairList
  generalize (none, (0 : ℚ), Boosts.empty) = acc
  induction category_keywords generalizing acc with
  | nil => rfl
  | cons ck rest ih =>
    simp only [List.flatMap_cons, List.foldl_cons, List.foldl_append, List.foldl_map]
    rw [ih]
    rfl

/-- `find_best_category` as the guarded flat argmax fold. -/
theorem find_best_category_eq_fold (nlp : NLPProcessor) (sim : String → String → ℚ)
    (transaction_text : String) (category_keywords : List (String × List String))
    (threshold : ℚ) :
    find_best_category nlp sim transaction_text category_keywords threshold =
      (if ((pairList category_keywords).foldl
            (argStep (pairResult nlp sim transaction_text
              (split_into_sentences transaction_text)))
            (none, 0, Boosts.empty)).2.1 ≥ threshold then
        (pairList category_keywords).foldl
          (argStep (pairResult nlp sim transaction_text
            (split_into_sentences transaction_text)))
          (none, 0, Boosts.empty)
      else (none, 0, Boosts.empty)) := by
  simp only [find_best_category]
  rw [findLoop_eq_argStep]

/-- C7: `find_best_category` (1) returns a category only with a score at or
above the threshold; (2) returns exactly `(none, 0, {})` whenever every
(category, keyword) pair's boosted score is below the threshold; and (3) on
success returns the first pair in enumeration order whose score attains the
maximum (first category reaching the maximum wins ties). -/
theorem find_best_category_spec (nlp : NLPProcessor) (sim : String → String → ℚ)
    (transaction_text : String) (category_keywords : List (String × List String))
    (threshold : ℚ) :
    (∀ c s b, find_best_category nlp sim transaction_text category_keywords threshold
        = (some c, s, b) → threshold ≤ s) ∧
    ((∀ p ∈ pairList category_keywords,
        (pairResult nlp sim transaction_text (split_into_sentences transaction_text) p).1
          < threshold) →
      find_best_category nlp sim transaction_text category_keywords threshold
        = (none, 0, Boosts.empty)) ∧
    (0 < runMax (pairResult nlp sim transaction_text (split_into_sentences transaction_text))
        (pairList category_keywords) 0 →
      threshold ≤ runMax (pairResult nlp sim transaction_text
        (split_into_sentences transaction_text)) (pairList category_keywords) 0 →
      ∃ p₀, (pairList category_keywords).find?
          (fun p => (pairResult nlp sim transaction_text
            (split_into_sentences transaction_text) p).1 =
            runMax (pairResult nlp sim transaction_text
              (split_into_sentences transaction_text)) (pairList category_keywords) 0)
          = some p₀ ∧
        find_best_category nlp sim transaction_text category_keywords threshold
          = (some p₀.1,
             (pairResult nlp sim transaction_text
               (split_into_sentences transaction_text) p₀).1,
             (pairResult nlp sim transaction_text
               (split_into_sentences transaction_text) p₀).2)) := by
  obtain ⟨h1, h2, h3⟩ := argStep_foldl
    (pairResult nlp sim transaction_text (split_into_sentences transaction_text))
    (pairList category_keywords) (none, 0, Boosts.empty)
  simp only [show ((none, 0, Boosts.empty) : Option String × ℚ × Boosts).2.1 = 0 from rfl]
    at h1 h2 h3
  rw [find_best_category_eq_fold]
  refine ⟨?_, ?_, ?_⟩
  · intro c s b h
    by_cases hth : ((pairList category_keywords).foldl
        (argStep (pairResult nlp sim transaction_text
          (split_into_sentences transaction_text))) (none, 0, Boosts.empty)).2.1 ≥ threshold
    · rw [if_pos hth] at h
      have : s = ((pairList category_keywords).foldl
          (argStep (pairResult nlp sim transaction_text
            (split_into_sentences transaction_text))) (none, 0, Boosts.empty)).2.1 := by
        rw [h]
      rw [this]
      exact hth
    · rw [if_neg hth] at h
      exact absurd (congrArg Prod.fst h) (by simp)
  · intro hall
    rcases (le_runMax (pairResult nlp sim transaction_text
        (split_into_sentences transaction_text)) (pairList category_keywords) 0).lt_or_eq
      with h0 | h0
    · obtain ⟨p₀, hfind, hres⟩ := h3 h0
      have hmem := List.mem_of_find?_eq_some hfind
      have hp₀ : (pairResult nlp sim transaction_text
          (split_into_sentences transaction_text) p₀).1 =
          runMax (pairResult nlp sim transaction_text
            (split_into_sentences transaction_text)) (pairList category_keywords) 0 := by
        have := List.find?_some hfind
        simpa using this
      have hlt := hall p₀ hmem
      rw [hp₀] at hlt
      rw [if_neg (by rw [h1]; exact not_le.mpr hlt)]
    · rw [h2 h0.symm]
      split_ifs <;> rfl
  · intro h0 hth
    obtain ⟨p₀, hfind, hres⟩ := h3 h0
    refine ⟨p₀, hfind, ?_⟩
    rw [if_pos (by rw [h1]; exact hth), hres]

/-- C7 witness: with no embedding signal and no textual overlap every pair
scores 0 < 0.7 and the no-match triple is returned; with keyword "rent"
boosted by all three signals to 0.5 ≥ threshold 0.5 the first maximal
category "Rent" is returned. -/
theorem find_best_category_spec_witness :
    find_best_category ⟨none, none⟩ (fun _ _ => 0) "abc def" [("Rent", ["rent"])] (7/10)
      = (none, 0, Boosts.empty) ∧
    find_best_category ⟨none, none⟩ (fun _ _ => 0) "pay rent now"
      [("Food", ["food"]), ("Rent", ["rent"])] (1/2)
      = (some "Rent", 1/2, ⟨true, true, true⟩) := by
  have habc : (pairResult ⟨none, none⟩ (fun _ _ => 0) "abc def"
      (split_into_sentences "abc def") ("Rent", "rent")).1 = 0 := by
    rw [pairResult, calculate_match_score_eq]
    rw [show exactFlag "abc def" "rent" = false from by decide,
        show lemmaFlag ⟨none, none⟩ "abc def" "rent" = false from by decide,
        show synFlag ⟨none, none⟩ "abc def" "rent" = false from by decide,
        show ((split_into_sentences "abc def").foldl
          (fun m s => max m ((fun _ _ => (0 : ℚ)) s ("Rent", "rent").2)) 0) = 0 from by decide]
    norm_num [boostBonus]
  have hfood : (pairResult ⟨none, none⟩ (fun _ _ => 0) "pay rent now"
      (split_into_sentences "pay rent now") ("Food", "food")).1 = 0 := by
    rw [pairResult, calculate_match_score_eq]
    rw [show exactFlag "pay rent now" "food" = false from by decide,
        show lemmaFlag ⟨none, none⟩ "pay rent now" "food" = false from by decide,
        show synFlag ⟨none, none⟩ "pay rent now" "food" = false from by decide,
        show ((split_into_sentences "pay rent now").foldl
          (fun m s => max m ((fun _ _ => (0 : ℚ)) s ("Food", "food").2)) 0) = 0 from by decide]
    norm_num [boostBonus]
  have hrent : pairResult ⟨none, none⟩ (fun _ _ => 0) "pay rent now"
      (split_into_sentences "pay rent now") ("Rent", "rent") = (1/2, ⟨true, true, true⟩) := by
    rw [pairResult, calculate_match_score_eq]
    rw [show exactFlag "pay rent now" "rent" = true from by decide,
        show lemmaFlag ⟨none, none⟩ "pay rent now" "rent" = true from by decide,
        show synFlag ⟨none, none⟩ "pay rent now" "rent" = true from by decide,
        show ((split_into_sentences "pay rent now").foldl
          (fun m s => max m ((fun _ _ => (0 : ℚ)) s ("Rent", "rent").2)) 0) = 0 from by decide]
    rw [Prod.ext_iff]
    refine ⟨?_, rfl⟩
    norm_num [boostBonus, min_def]
  have hrun : runMax (pairResult ⟨none, none⟩ (fun _ _ => 0) "pay rent now"
      (split_into_sentences "pay rent now"))
      (pairList [("Food", ["food"]), ("Rent", ["rent"])]) 0 = 1/2 := by
    rw [show pairList [("Food", ["food"]), ("Rent", ["rent"])] =
        [("Food", "food"), ("Rent", "rent")] from by decide]
    simp only [runMax, List.foldl_cons, List.foldl_nil, hfood]
    rw [show (pairResult ⟨none, none⟩ (fun _ _ => 0) "pay rent now"
        (split_into_sentences "pay rent now") ("Rent", "rent")).1 = 1/2 from by rw [hrent]]
    norm_num [max_def]
  constructor
  · refine (find_best_category_spec ⟨none, none⟩ (fun _ _ => 0) "abc def"
      [("Rent", ["rent"])] (7/10)).2.1 ?_
    intro p hp
    have hp' : p = ("Rent", "rent") := by simpa [pairList] using hp
    rw [hp', habc]
    norm_num
  · obtain ⟨p₀, hfind, hres⟩ := (find_best_category_spec ⟨none, none⟩ (fun _ _ => 0)
      "pay rent now" [("Food", ["food"]), ("Rent", ["rent"])] (1/2)).2.2
      (by rw [hrun]; norm_num) (by rw [hrun])
    have hmem : p₀ ∈ [("Food", "food"), ("Rent", "rent")] := by
      have := List.mem_of_find?_eq_some hfind
      simpa [pairList] using this
    have hpred := List.find?_some hfind
    simp only [decide_eq_true_eq] at hpred
    rcases List.mem_pair.mp hmem with h | h
    · exfalso
      rw [h] at hpred
      rw [hfood, hrun] at hpred
      norm_num at hpred
    · rw [h] at hres
      rw [hres, hrent]

/-- An upsert makes the stored vector visible under its own key. -/
theorem get_cached_save_eq (st : CacheState) (t : String) (emb : List ℚ) :
    get_cached_embedding (save_embedding st t emb) t = some emb := by
  simp [get_cached_embedding, save_embedding]

/-- An upsert under key `t` leaves every other key's lookup unchanged. -/
theorem get_cached_save_ne (st : CacheState) (t t' : String) (emb : List ℚ)
    (h : t' ≠ t) :
    get_cached_embedding (save_embedding st t emb) t' = get_cached_embedding st t' := by
  simp only [get_cached_embedding, save_embedding]
  rw [List.find?_cons_of_neg _ (by simpa using fun hh => absurd hh.symm h)]
  congr 1
  induction st with
  | nil => rfl
  | cons r rs ih =>
    by_cases hr : r.1 = t
    · rw [List.filter_cons_of_neg (by simpa using hr),
        List.find?_cons_of_neg _ (by simp only [hr, decide_eq_true_eq]; exact fun hh => h hh.symm)]
      exact ih
    · rw [List.filter_cons_of_pos (by simpa using hr)]
      by_cases hr' : r.1 = t'
      · rw [List.find?_cons_of_pos _ (by simpa using hr'),
          List.find?_cons_of_pos _ (by simpa using hr')]
      · rw [List.find?_cons_of_neg _ (by simpa using hr'),
          List.find?_cons_of_neg _ (by simpa using hr')]
        exact ih

/-- C9: the embedding lookup is cache-first with exact-text keys. A miss
followed by a successful provider call stores the vector, so a second call
with the identical text is served from the cache with no further provider
call (one call total, same state); a call for text `t` never changes the
cache slot of any other text `t'`; and a failed provider call stores
nothing, so the next lookup for that text calls the provider again. -/
theorem get_embedding_cache_spec (provider : String → Option (List ℚ))
    (st : CacheState) (t t' : String) (emb : List ℚ) :
    (get_cached_embedding st t = none → provider t = some emb → emb ≠ [] →
      (get_embedding true provider st t).result = .ok emb ∧
      (get_embedding true provider st t).providerCalls = 1 ∧
      (get_embedding true provider (get_embedding true provider st t).state t).result
        = .ok emb ∧
      (get_embedding true provider (get_embedding true provider st t).state t).providerCalls
        = 0 ∧
      (get_embedding true provider (get_embedding true provider st t).state t).state
        = (get_embedding true provider st t).state) ∧
    (t' ≠ t →
      get_cached_embedding (get_embedding true provider st t).state t'
        = get_cached_embedding st t') ∧
    (provider t = none → get_cached_embedding st t = none →
      get_embedding true provider st t = ⟨.error (), st, 1⟩) := by
  refine ⟨?_, ?_, ?_⟩
  · intro hmiss hprov hne
    have h1 : get_embedding true provider st t =
        ⟨.ok emb, save_embedding st t emb, 1⟩ := by
      simp [get_embedding, hmiss, hprov]
    rw [h1]
    have h2 : get_embedding true provider (save_embedding st t emb) t =
        ⟨.ok emb, save_embedding st t emb, 0⟩ := by
      simp [get_embedding, get_cached_save_eq, hne]
    rw [h2]
    exact ⟨rfl, rfl, rfl, rfl, rfl⟩
  · intro hne
    simp only [get_embedding]
    rcases hcache : get_cached_embedding st t with _ | cached
    · rcases hprov : provider t with _ | emb2
      · simp
      · simpa using get_cached_save_ne st t t' emb2 hne
    · by_cases hc : cached ≠ []
      · simp [hc]
      · rcases hprov : provider t with _ | emb2
        · simp [hc]
        · simp only [hc]
          simpa using get_cached_save_ne st t t' emb2 hne
  · intro hprov hmiss
    simp [get_embedding, hmiss, hprov]

/-- C9 witness: a fresh cache, a provider returning `[1, 2]` for "abc": the
first call hits the provider, the second is served from the cache; the
lookup for "xyz" stays empty; a provider that fails stores nothing. -/
theorem get_embedding_cache_spec_witness :
    (get_embedding true (fun _ => some [1, 2]) [] "abc").result = .ok [1, 2] ∧
    (get_embedding true (fun _ => some [1, 2]) [] "abc").providerCalls = 1 ∧
    (get_embedding true (fun _ => some [1, 2])
      (get_embedding true (fun _ => some [1, 2]) [] "abc").state "abc").providerCalls = 0 ∧
    get_cached_embedding
      (get_embedding true (fun _ => some [1, 2]) [] "abc").state "xyz" = none ∧
    get_embedding true (fun _ => none) [] "abc" = ⟨.error (), [], 1⟩ := by
  obtain ⟨ha, hb, hc⟩ := get_embedding_cache_spec (fun _ => some [1, 2]) [] "abc" "xyz" [1, 2]
  obtain ⟨h1, h2, h3, h4, h5⟩ := ha rfl rfl (by decide)
  refine ⟨h1, h2, h4, ?_, ?_⟩
  · rw [hb (by decide)]
    rfl
  · exact (get_embedding_cache_spec (fun _ => none) [] "abc" "xyz" []).2.2 rfl rfl

/-- A concrete ingestion environment used by the witnesses: degraded NLP,
zero embedding similarity, no configured keywords, threshold 0.7, and an
identity date parse. -/
def sampleEnv : IngestEnv := ⟨⟨none, none⟩, fun _ _ => 0, [], mkRat 7 10, fun s => some s⟩

/-- The empty database state. -/
def emptyDB : DBState := ⟨[], [], [], []⟩

/-- A concrete Credit payload. -/
def creditPayload : Payload :=
  { documentProcessDate := "2025-06-11", description := "sale",
    creditDebitIndicator := some "Credit" }

/-- A concrete Debit payload. -/
def debitPayload : Payload :=
  { documentProcessDate := "2025-06-11", description := "buy",
    creditDebitIndicator := some "Debit",
    creditorParty := { inn := "123", name := "LLC" } }

/-- A concrete payload with an unrecognised direction indicator. -/
def unknownPayload : Payload :=
  { documentProcessDate := "2025-06-11", description := "mystery",
    creditDebitIndicator := some "Unknown",
    debtorParty := { inn := "777", name := "X" } }

/-- Number of stored rows matching a payload's natural key. -/
def countKey (st : DBState) (date : String) (p : Payload) : ℕ :=
  (st.transactions.filter (fun t =>
    t.date = date && t.contractor_inn = payloadInn p &&
    t.contractor_bic = payloadBic p && t.purpose = payloadPurpose p)).length

theorem ensureContractor_transactions (st : DBState) (p : Payload) :
    (ensureContractor st p).transactions = st.transactions := by
  unfold ensureContractor
  split_ifs <;> rfl

theorem ensureContractor_mappings (st : DBState) (p : Payload) :
    (ensureContractor st p).mappings = st.mappings := by
  unfold ensureContractor
  split_ifs <;> rfl

theorem ensureCategory_transactions (st : DBState) (name : String) :
    (ensureCategory st name).transactions = st.transactions := by
  unfold ensureCategory
  split_ifs <;> rfl

theorem routeCategory_transactions (env : IngestEnv) (st1 : DBState) (p : Payload) :
    (routeCategory env st1 p).1.transactions = st1.transactions := by
  unfold routeCategory
  by_cases h1 : p.creditDebitIndicator = some "Credit"
  · simp only [if_pos h1]
    exact ensureCategory_transactions _ _
  · by_cases h2 : p.creditDebitIndicator = some "Debit"
    · simp only [if_neg h1, if_pos h2]
      cases hb : (find_best_category env.nlp env.sim (payloadPurpose p)
          env.category_keywords env.threshold).1 with
      | none =>
        simp only [hb]
        by_cases h3 : payloadInn p ≠ ""
        · simp only [if_pos h3]
          cases hm : st1.mappings.find? (fun m => m.1 = payloadInn p) <;> simp [hm]
        · simp only [if_neg h3]
      | some best =>
        simp only [hb]
        exact ensureCategory_transactions _ _
    · simp only [if_neg h1, if_neg h2]

/-- `saveNew` appends exactly the routed row and touches no other row. -/
theorem saveNew_transactions (env : IngestEnv) (st : DBState) (date : String)
    (p : Payload) (account batch_id : String) :
    (saveNew env st date p account batch_id).transactions =
      st.transactions ++
        [newRecord p date account batch_id
          (routeCategory env (ensureContractor st p) p).2.1
          (routeCategory env (ensureContractor st p) p).2.2] := by
  unfold saveNew
  simp only [routeCategory_transactions, ensureContractor_transactions]

/-- The appended row matches its own natural key. -/
theorem newRecord_matches (p : Payload) (date account batch_id : String)
    (category source : Option String) :
    (fun t => t.date = date && t.contractor_inn = payloadInn p &&
      t.contractor_bic = payloadBic p && t.purpose = payloadPurpose p)
      (newRecord p date account batch_id category source) = true := by
  simp [newRecord]

/-- C3: the natural-key uniqueness invariant of ingestion. If a stored row
already matches the payload's key (date, INN, BIC, purpose), the save is a
skip that changes nothing; otherwise the save adds exactly one row with
that key, and saving the same payload again is a no-op — so ingesting the
same payload twice yields exactly one matching row. -/
theorem save_transaction_idempotent (env : IngestEnv) (st : DBState) (p : Payload)
    (account batch_id date : String)
    (hdate : env.parseDate p.documentProcessDate = some date) :
    (isDuplicate st date p = true → save_transaction env st p account batch_id = st) ∧
    (isDuplicate st date p = false →
      countKey (save_transaction env st p account batch_id) date p = countKey st date p + 1 ∧
      save_transaction env (save_transaction env st p account batch_id) p account batch_id
        = save_transaction env st p account batch_id) := by
  constructor
  · intro hdup
    unfold save_transaction
    rw [hdate]
    simp only [hdup, if_pos]
  · intro hdup
    have hsave : save_transaction env st p account batch_id =
        saveNew env st date p account batch_id := by
      unfold save_transaction
      rw [hdate]
      simp only [hdup]
      rfl
    have htr := saveNew_transactions env st date p account batch_id
    constructor
    · rw [hsave]
      unfold countKey
      rw [htr, List.filter_append, List.length_append]
      simp [newRecord_matches]
    · have hdup2 : isDuplicate (saveNew env st date p account batch_id) date p = true := by
        unfold isDuplicate
        rw [htr, List.any_append]
        simp [newRecord_matches]
      rw [hsave]
      unfold save_transaction
      rw [hdate]
      simp only [hdup2, if_pos]

/-- C3 witness: ingesting a concrete payload twice into an empty store
leaves exactly one matching row. -/
theorem save_transaction_idempotent_witness :
    countKey (save_transaction
        ⟨⟨none, none⟩, fun _ _ => 0, [], mkRat 7 10, fun s => some s⟩
        ⟨[], [], [], []⟩
        { documentProcessDate := "2025-06-11", description := "coffee",
          creditDebitIndicator := some "Credit" } "acc" "batch")
      "2025-06-11"
      { documentProcessDate := "2025-06-11", description := "coffee",
        creditDebitIndicator := some "Credit" } = 1 ∧
    save_transaction ⟨⟨none, none⟩, fun _ _ => 0, [], mkRat 7 10, fun s => some s⟩
      (save_transaction ⟨⟨none, none⟩, fun _ _ => 0, [], mkRat 7 10, fun s => some s⟩
        ⟨[], [], [], []⟩
        { documentProcessDate := "2025-06-11", description := "coffee",
          creditDebitIndicator := some "Credit" } "acc" "batch")
      { documentProcessDate := "2025-06-11", description := "coffee",
        creditDebitIndicator := some "Credit" } "acc" "batch"
      = save_transaction ⟨⟨none, none⟩, fun _ _ => 0, [], mkRat 7 10, fun s => some s⟩
        ⟨[], [], [], []⟩
        { documentProcessDate := "2025-06-11", description := "coffee",
          creditDebitIndicator := some "Credit" } "acc" "batch" := by
  obtain ⟨-, h2⟩ := save_transaction_idempotent
    ⟨⟨none, none⟩, fun _ _ => 0, [], mkRat 7 10, fun s => some s⟩
    ⟨[], [], [], []⟩
    { documentProcessDate := "2025-06-11", description := "coffee",
      creditDebitIndicator := some "Credit" } "acc" "batch" "2025-06-11" rfl
  obtain ⟨hcount, hsecond⟩ := h2 (by decide)
  exact ⟨by rw [hcount]; decide, hsecond⟩

/-- Routing a Credit payload always yields the fixed revenue category with
source "default". -/
theorem routeCategory_credit (env : IngestEnv) (st1 : DBState) (p : Payload)
    (h : p.creditDebitIndicator = some "Credit") :
    (routeCategory env st1 p).2 = (some "Выручка", some "default") := by
  unfold routeCategory
  simp only [h, if_pos]

/-- Routing a Debit payload yields source "nlp", "map" or none — never
"default". -/
theorem routeCategory_debit_source (env : IngestEnv) (st1 : DBState) (p : Payload)
    (h : p.creditDebitIndicator = some "Debit") :
    (routeCategory env st1 p).2.2 = some "nlp" ∨
    (routeCategory env st1 p).2.2 = some "map" ∨
    (routeCategory env st1 p).2.2 = none := by
  unfold routeCategory
  simp only [h]
  simp only [if_true]
  cases (find_best_category env.nlp env.sim (payloadPurpose p)
      env.category_keywords env.threshold).1 with
  | some best => simp
  | none =>
    by_cases h3 : payloadInn p ≠ ""
    · simp only [if_pos h3]
      cases st1.mappings.find? (fun m => m.1 = payloadInn p) <;> simp
    · simp only [if_neg h3]
      simp

/-- Common shape: a non-duplicate save with a parsed date appends exactly
the routed row. -/
theorem save_transaction_eq_append (env : IngestEnv) (st : DBState) (p : Payload)
    (account batch_id date : String)
    (hdate : env.parseDate p.documentProcessDate = some date)
    (hdup : isDuplicate st date p = false) :
    (save_transaction env st p account batch_id).transactions =
      st.transactions ++
        [newRecord p date account batch_id
          (routeCategory env (ensureContractor st p) p).2.1
          (routeCategory env (ensureContractor st p) p).2.2] := by
  unfold save_transaction
  rw [hdate]
  simp only [hdup]
  rw [if_neg (by simp)]
  exact saveNew_transactions env st date p account batch_id

/-- C4: every persisted Credit payload gets the fixed revenue category
"Выручка" with source "default"; a persisted Debit payload never gets
source "default" (its source is "nlp", "map" or null). -/
theorem save_transaction_direction_routing (env : IngestEnv) (st : DBState) (p : Payload)
    (account batch_id date : String)
    (hdate : env.parseDate p.documentProcessDate = some date) :
    (p.creditDebitIndicator = some "Credit" → isDuplicate st date p = false →
      (save_transaction env st p account batch_id).transactions =
        st.transactions ++
          [newRecord p date account batch_id (some "Выручка") (some "default")]) ∧
    (p.creditDebitIndicator = some "Debit" →
      ∀ t ∈ (save_transaction env st p account batch_id).transactions,
        t ∈ st.transactions ∨ t.category_source ≠ some "default") := by
  constructor
  · intro hcredit hdup
    rw [save_transaction_eq_append env st p account batch_id date hdate hdup]
    have hr := routeCategory_credit env (ensureContractor st p) p hcredit
    rw [show (routeCategory env (ensureContractor st p) p).2.1 = some "Выручка" by
        rw [hr],
      show (routeCategory env (ensureContractor st p) p).2.2 = some "default" by
        rw [hr]]
  · intro hdebit t ht
    by_cases hdup : isDuplicate st date p = true
    · have hskip : save_transaction env st p account batch_id = st := by
        unfold save_transaction
        rw [hdate]
        simp only [hdup, if_pos]
      rw [hskip] at ht
      exact Or.inl ht
    · rw [Bool.not_eq_true] at hdup
      rw [save_transaction_eq_append env st p account batch_id date hdate hdup] at ht
      rcases List.mem_append.mp ht with hin | hnew
      · exact Or.inl hin
      · right
        rw [List.mem_singleton.mp hnew]
        show (routeCategory env (ensureContractor st p) p).2.2 ≠ some "default"
        rcases routeCategory_debit_source env (ensureContractor st p) p hdebit
          with h | h | h <;> rw [h] <;> decide

/-- C4 witness: a Credit payload is stored with category "Выручка" and
source "default"; a Debit payload (with no keywords configured and no
mapping) is stored with a source other than "default". -/
theorem save_transaction_direction_routing_witness :
    (save_transaction sampleEnv emptyDB creditPayload "acc" "b").transactions =
      [newRecord creditPayload "2025-06-11" "acc" "b" (some "Выручка") (some "default")] ∧
    (∀ t ∈ (save_transaction sampleEnv emptyDB debitPayload "acc" "b").transactions,
      t ∈ ([] : List TransactionRecord) ∨ t.category_source ≠ some "default") := by
  constructor
  · exact (save_transaction_direction_routing sampleEnv emptyDB creditPayload
      "acc" "b" "2025-06-11" rfl).1 rfl (by decide)
  · exact (save_transaction_direction_routing sampleEnv emptyDB debitPayload
      "acc" "b" "2025-06-11" rfl).2 rfl

/-- C10: a payload whose `creditDebitIndicator` is neither "Credit" nor
"Debit" is treated as incoming — credit amount set, debit null, the
debtor-side party/agent/account blocks read — but no category is assigned:
the persisted row has a null category and a null source. -/
theorem save_transaction_unknown_direction (env : IngestEnv) (st : DBState) (p : Payload)
    (account batch_id date : String)
    (hdate : env.parseDate p.documentProcessDate = some date)
    (hnc : p.creditDebitIndicator ≠ some "Credit")
    (hnd : p.creditDebitIndicator ≠ some "Debit")
    (hdup : isDuplicate st date p = false) :
    (save_transaction env st p account batch_id).transactions =
      st.transactions ++ [newRecord p date account batch_id none none] ∧
    (newRecord p date account batch_id none none).credit = some p.amount ∧
    (newRecord p date account batch_id none none).debit = none ∧
    (newRecord p date account batch_id none none).contractor_inn
      = pyStrip p.debtorParty.inn ∧
    (newRecord p date account batch_id none none).contractor_bic
      = pyStrip p.debtorAgent.identification ∧
    (newRecord p date account batch_id none none).contractor_account
      = pyStrip p.debtorAccount.identification ∧
    (newRecord p date account batch_id none none).expense_category = none ∧
    (newRecord p date account batch_id none none).category_source = none := by
  have hroute : routeCategory env (ensureContractor st p) p
      = (ensureContractor st p, none, none) := by
    unfold routeCategory
    rw [if_neg hnc, if_neg hnd]
  refine ⟨?_, ?_, ?_, ?_, ?_, ?_, rfl, rfl⟩
  · rw [save_transaction_eq_append env st p account batch_id date hdate hdup]
    rw [show (routeCategory env (ensureContractor st p) p).2.1 = none by rw [hroute],
      show (routeCategory env (ensureContractor st p) p).2.2 = none by rw [hroute]]
  · simp [newRecord, if_neg hnd]
  · simp [newRecord, if_neg hnd]
  · simp [newRecord, payloadInn, payloadParty, if_neg hnd]
  · simp [newRecord, payloadBic, payloadAgent, if_neg hnd]
  · simp [newRecord, payloadAccount, if_neg hnd]

/-- C10 witness: a payload with indicator "Unknown" is persisted with the
credit amount, debtor-side counterparty data, and no category. -/
theorem save_transaction_unknown_direction_witness :
    (save_transaction sampleEnv emptyDB unknownPayload "acc" "b").transactions =
      [newRecord unknownPayload "2025-06-11" "acc" "b" none none] ∧
    (newRecord unknownPayload "2025-06-11" "acc" "b" none none).credit = some 0 ∧
    (newRecord unknownPayload "2025-06-11" "acc" "b" none none).contractor_inn = "777" := by
  have h := save_transaction_unknown_direction sampleEnv emptyDB unknownPayload
    "acc" "b" "2025-06-11" rfl (by decide) (by decide) (by decide)
  refine ⟨h.1, ?_, ?_⟩
  · rw [h.2.1]
    rfl
  · rw [h.2.2.2.1]
    rfl

/-- A database state holding one INN → category mapping. -/
def mappingDB : DBState := ⟨[], [], [], [("123", "Аренда")]⟩

/-- When the matcher returns no category for a Debit payload, routing falls
back to the INN mapping. -/
theorem routeCategory_debit_fallback (env : IngestEnv) (st1 : DBState) (p : Payload)
    (hdebit : p.creditDebitIndicator = some "Debit")
    (hnlp : (find_best_category env.nlp env.sim (payloadPurpose p)
      env.category_keywords env.threshold).1 = none) :
    routeCategory env st1 p =
      (if payloadInn p ≠ "" then
        match st1.mappings.find? (fun m => m.1 = payloadInn p) with
        | some mapping => (st1, some mapping.2, some "map")
        | none => (st1, none, none)
      else (st1, none, none)) := by
  unfold routeCategory
  simp only [hdebit, hnlp]
  rw [if_neg (show ¬ ((some "Debit" : Option String) = some "Credit") by decide)]
  simp only [if_true]

/-- C5 counterexample: for a Debit payload whose text matches no keyword and
whose INN is mapped, the persisted category-source tag is the string "map",
not "mapping" as the claim states. -/
theorem save_transaction_mapping_tag_counterexample :
    ((save_transaction sampleEnv mappingDB debitPayload "acc" "b").transactions.map
      (fun t => t.category_source)) = [some "map"] ∧
    ((save_transaction sampleEnv mappingDB debitPayload "acc" "b").transactions.map
      (fun t => t.category_source)) ≠ [some "mapping"] := by
  constructor <;> decide

/-- C5 (amended): for a Debit payload whose text yields no match from the
matching engine: if its (nonempty) tax id is found in the contractor
mapping, the persisted row carries exactly the mapped category with source
tag "map" (the code's spelling of the mapping source); if the tax id is
empty or unmapped, the row is persisted with no category and a null
source. -/
theorem save_transaction_fallback_mapping (env : IngestEnv) (st : DBState) (p : Payload)
    (account batch_id date : String)
    (hdate : env.parseDate p.documentProcessDate = some date)
    (hdebit : p.creditDebitIndicator = some "Debit")
    (hnlp : (find_best_category env.nlp env.sim (payloadPurpose p)
      env.category_keywords env.threshold).1 = none)
    (hdup : isDuplicate st date p = false) :
    (∀ m, payloadInn p ≠ "" →
      st.mappings.find? (fun r => r.1 = payloadInn p) = some m →
      (save_transaction env st p account batch_id).transactions =
        st.transactions ++
          [newRecord p date account batch_id (some m.2) (some "map")]) ∧
    ((payloadInn p = "" ∨ st.mappings.find? (fun r => r.1 = payloadInn p) = none) →
      (save_transaction env st p account batch_id).transactions =
        st.transactions ++ [newRecord p date account batch_id none none]) := by
  have happ := save_transaction_eq_append env st p account batch_id date hdate hdup
  have hroute := routeCategory_debit_fallback env (ensureContractor st p) p hdebit hnlp
  rw [ensureContractor_mappings] at hroute
  constructor
  · intro m hinn hfind
    rw [if_pos hinn, hfind] at hroute
    rw [happ,
      show (routeCategory env (ensureContractor st p) p).2.1 = some m.2 by rw [hroute],
      show (routeCategory env (ensureContractor st p) p).2.2 = some "map" by rw [hroute]]
  · intro hcases
    have hroute2 : (routeCategory env (ensureContractor st p) p).2 = (none, none) := by
      rcases hcases with hinn | hfind
      · rw [if_neg (by simpa using hinn)] at hroute
        rw [hroute]
      · by_cases hinn : payloadInn p ≠ ""
        · rw [if_pos hinn, hfind] at hroute
          rw [hroute]
        · rw [if_neg hinn] at hroute
          rw [hroute]
    rw [happ,
      show (routeCategory env (ensureContractor st p) p).2.1 = none by rw [hroute2],
      show (routeCategory env (ensureContractor st p) p).2.2 = none by rw [hroute2]]

/-- C5 witness: with the mapping {123 → Аренда} the Debit payload with
INN 123 is stored with category "Аренда" and source "map"; with no mapping
it is stored uncategorised. -/
theorem save_transaction_fallback_mapping_witness :
    (save_transaction sampleEnv mappingDB debitPayload "acc" "b").transactions =
      mappingDB.transactions ++
        [newRecord debitPayload "2025-06-11" "acc" "b" (some "Аренда") (some "map")] ∧
    (save_transaction sampleEnv emptyDB debitPayload "acc" "b").transactions =
      emptyDB.transactions ++
        [newRecord debitPayload "2025-06-11" "acc" "b" none none] := by
  constructor
  · exact (save_transaction_fallback_mapping sampleEnv mappingDB debitPayload "acc" "b"
      "2025-06-11" rfl rfl (by decide) (by decide)).1 ("123", "Аренда")
      (by decide) (by decide)
  · exact (save_transaction_fallback_mapping sampleEnv emptyDB debitPayload "acc" "b"
      "2025-06-11" rfl rfl (by decide) (by decide)).2 (Or.inr (by decide))

/-- An account whose `create_statement` call fails (non-200 response). -/
def badFeed : AccountFeed := ⟨"acc1", false, none, fun _ => none, []⟩

/-- An account whose statement is created, polls `Ready` at once, and holds
one credit transaction. -/
def goodFeed : AccountFeed := ⟨"acc2", true, some "sid", fun _ => some "Ready", [creditPayload]⟩

/-- C2 counterexample: with two accounts where the first account's
create-statement call fails, the run aborts with that error and the second
account's transaction is never saved — although processing the second
account alone would have saved it. So one account's acquisition failure
does prevent the remaining accounts from being processed. -/
theorem fetch_and_save_statements_counterexample :
    fetch_and_save_statements sampleEnv 60 "b" [badFeed, goodFeed] emptyDB
      = (emptyDB, some FetchError.createFailed) ∧
    (fetch_and_save_statements sampleEnv 60 "b" [badFeed, goodFeed] emptyDB).1.transactions
      = [] ∧
    (processAccount sampleEnv 60 "b" goodFeed emptyDB).1.transactions ≠ [] := by
  refine ⟨by decide, by decide, by decide⟩

/-- C2 (amended): `fetch_and_save_statements` handles the configured
accounts strictly in order, and an acquisition failure for one account
(create failure, malformed create response, poll error or timeout) aborts
the run with that error: the database keeps only what was saved up to the
failing account, and the remaining accounts are not processed. Accounts
are processed independently only in the sense that a successful account
hands its updated state to the next one. -/
theorem fetch_and_save_statements_abort (env : IngestEnv) (max_attempts : ℕ)
    (batch_id : String) (feed : AccountFeed) (rest : List AccountFeed) (st : DBState) :
    (∀ st1 e, processAccount env max_attempts batch_id feed st = (st1, some e) →
      fetch_and_save_statements env max_attempts batch_id (feed :: rest) st
        = (st1, some e)) ∧
    (∀ st1, processAccount env max_attempts batch_id feed st = (st1, none) →
      fetch_and_save_statements env max_attempts batch_id (feed :: rest) st
        = fetch_and_save_statements env max_attempts batch_id rest st1) := by
  constructor
  · intro st1 e h
    unfold fetch_and_save_statements
    rw [h]
  · intro st1 h
    conv_lhs => unfold fetch_and_save_statements
    rw [h]

/-- C2 witness: the failing first account short-circuits the concrete
two-account run. -/
theorem fetch_and_save_statements_abort_witness :
    fetch_and_save_statements sampleEnv 60 "b" [badFeed, goodFeed] emptyDB
      = (emptyDB, some FetchError.createFailed) :=
  (fetch_and_save_statements_abort sampleEnv 60 "b" badFeed [goodFeed] emptyDB).1
    emptyDB FetchError.createFailed rfl

end CoinCounter
